import Mathlib

/-!
Package kafkautils: the file lock of file_lock.go.

A shallow embedding of `NewFileLock`, `FileLock.Lock`, `FileLock.TryLock`,
`FileLock.Unlock` and `FileLock.Destroy`.

The package calls three collaborators that are not part of it: the Go `os`
package (`os.Stat`, `os.Create`, `os.Remove`, `os.IsNotExist`), `fmt.Errorf`
and the advisory lock of `github.com/juju/fslock`.  The first is embedded as a
small file system with per-path faults, the second as constructors of error
values, the third as a parameter `Primitive` whose state type and operations
are arbitrary; acquiring may read and change the file system, as the library
opens the lock file and creates it when it is missing.  `flock` is one
concrete primitive, after the unix implementation of the library, used to
instantiate the general statements.
-/

namespace Kafkautils

/-! ## Error values -/

/-- Go error values a call of this package can see or build.  A `nil` error is
`none : Option GoError`. -/
inductive GoError where
  /-- A `syscall.Errno`. -/
  | errno (code : Nat)
  /-- A value of one of the string error types of the lock package. -/
  | fslockError (text : String)
  /-- A `*os.PathError`, what `os.Stat`, `os.Create` and `os.Remove` return. -/
  | pathError (op : String) (path : String) (err : GoError)
  /-- What `fmt.Errorf` returns for a format without the `%w` verb. -/
  | errorString (text : String)
  /-- What `fmt.Errorf` returns for a format with one `%w` verb: the formatted
  message and the wrapped operand. -/
  | wrapError (msg : String) (err : GoError)
  deriving DecidableEq

/-- Errno `ENOENT`. -/
def ENOENT : Nat := 2

/-- Errno `EBADF`. -/
def EBADF : Nat := 9

/-- Errno `EACCES`. -/
def EACCES : Nat := 13

/-- Errno `ENOTDIR`. -/
def ENOTDIR : Nat := 20

/-- The text of `syscall.Errno.Error` (the table is reproduced for the codes
used below; Go prints the others it does not know as `errno N`). -/
def errnoText (code : Nat) : String :=
  if code = 2 then "no such file or directory"
  else if code = 9 then "bad file descriptor"
  else if code = 13 then "permission denied"
  else if code = 20 then "not a directory"
  else "errno " ++ toString code

/-- The method `Error()`. -/
def GoError.Error : GoError → String
  | .errno code => errnoText code
  | .fslockError text => text
  | .pathError op path err => op ++ " " ++ path ++ ": " ++ err.Error
  | .errorString text => text
  | .wrapError msg _ => msg

/-- The function `errors.Unwrap`: the wrapped error, `none` when the value has
no `Unwrap` method. -/
def GoError.Unwrap : GoError → Option GoError
  | .pathError _ _ err => some err
  | .wrapError _ err => some err
  | _ => none

/-- The call `fmt.Errorf(pre + "%w", err)`: the message is the formatted text,
`Unwrap` yields `err`. -/
def ErrorfW (pre : String) (err : GoError) : GoError :=
  .wrapError (pre ++ err.Error) err

/-- The call `fmt.Errorf(text)` for a text without verbs. -/
def Errorf (text : String) : GoError :=
  .errorString text

/-- The value `fslock.ErrLocked`, which `TryLock` of the primitive returns when
the lock is held elsewhere. -/
def ErrLocked : GoError :=
  .fslockError "fslock is already locked"

/-- The function `os.IsNotExist`: strips one `*os.PathError` and compares the
rest with `ENOENT`; `false` on a `nil` error. -/
def IsNotExist : Option GoError → Bool
  | some (.pathError _ _ err) => err == .errno ENOENT
  | some err => err == .errno ENOENT
  | none => false

/-! ## The file system seen through the os package -/

/-- What the system finds when it resolves a path: a regular file, with the
number of its inode and its content, or a failure of the resolution itself
with its errno (`ENOENT` for a missing parent directory, `ENOTDIR`, `EACCES`,
`ENAMETOOLONG`, ...).  A path without an entry names no file, in a directory
that exists. -/
inductive Entry where
  | file (ino : Nat) (content : String)
  | fault (code : Nat)
  deriving DecidableEq

/-- The file system: the entries by path (the first binding of a path counts),
the paths whose directory entry cannot be added or removed, with the errno
the attempt reports (`EACCES`, `EROFS`, `ENOSPC`, ...), and the inode number
the next new file gets. -/
structure FileSystem where
  entries : List (String × Entry)
  frozen : List (String × Nat)
  nextIno : Nat
  deriving DecidableEq

/-- The content of the regular file at `name`, if there is one. -/
def FileSystem.readFile (fs : FileSystem) (name : String) : Option String :=
  match fs.entries.lookup name with
  | some (.file _ content) => some content
  | _ => none

/-- The error result of `os.Stat(name)`. -/
def FileSystem.Stat (fs : FileSystem) (name : String) : Option GoError :=
  match fs.entries.lookup name with
  | some (.file _ _) => none
  | some (.fault code) => some (.pathError "stat" name (.errno code))
  | none => some (.pathError "stat" name (.errno ENOENT))

/-- The call `os.Create(name)`, that is open with `O_RDWR|O_CREATE|O_TRUNC`: an
existing file is truncated, a missing one is created empty, on a new inode. -/
def FileSystem.Create (fs : FileSystem) (name : String) : Option GoError × FileSystem :=
  match fs.entries.lookup name with
  | some (.file ino _) =>
    (none,
      { fs with entries := (name, .file ino "") :: fs.entries.filter (fun kv => kv.1 != name) })
  | some (.fault code) => (some (.pathError "open" name (.errno code)), fs)
  | none =>
    match fs.frozen.lookup name with
    | some code => (some (.pathError "open" name (.errno code)), fs)
    | none =>
      (none,
        { fs with entries := (name, .file fs.nextIno "") :: fs.entries,
                  nextIno := fs.nextIno + 1 })

/-- The system call `open(name, O_CREAT|O_RDONLY)`, which the lock library
makes: the inode of the file it opens, created empty on a new inode when it
was missing, or the errno. -/
def FileSystem.OpenCreat (fs : FileSystem) (name : String) : Except Nat Nat × FileSystem :=
  match fs.entries.lookup name with
  | some (.file ino _) => (.ok ino, fs)
  | some (.fault code) => (.error code, fs)
  | none =>
    match fs.frozen.lookup name with
    | some code => (.error code, fs)
    | none =>
      (.ok fs.nextIno,
        { fs with entries := (name, .file fs.nextIno "") :: fs.entries,
                  nextIno := fs.nextIno + 1 })

/-- The call `os.Remove(name)`. -/
def FileSystem.Remove (fs : FileSystem) (name : String) : Option GoError × FileSystem :=
  match fs.entries.lookup name with
  | some (.file _ _) =>
    match fs.frozen.lookup name with
    | some code => (some (.pathError "remove" name (.errno code)), fs)
    | none => (none, { fs with entries := fs.entries.filter (fun kv => kv.1 != name) })
  | some (.fault code) => (some (.pathError "remove" name (.errno code)), fs)
  | none => (some (.pathError "remove" name (.errno ENOENT)), fs)

/-- A call into the os package, as recorded in the world. -/
inductive OsCall where
  | stat (name : String)
  | create (name : String)
  | remove (name : String)
  deriving DecidableEq

/-! ## The lock primitive -/

/-- A `*fslock.Lock`: the address of the allocation, which is its identity, and
the file name it was made for. -/
structure FslockLock where
  addr : Nat
  filename : String
  deriving DecidableEq

/-- The advisory lock the package is built on, over its own state `σ`.
`Lock` and `TryLock` see the file system and may change it (the library opens
the file at the path of the lock and creates it when it is missing); `Unlock`
sees it and changes no file.  `Lock` is the blocking call: `none` when it
never returns, otherwise the nanoseconds it takes, the error it returns, and
the file system and the state it leaves. -/
structure Primitive (σ : Type) where
  Lock : FileSystem → σ → FslockLock → Option (Nat × Option GoError × FileSystem × σ)
  TryLock : FileSystem → σ → FslockLock → Option GoError × FileSystem × σ
  Unlock : FileSystem → σ → FslockLock → Option GoError × σ

/-- The state the operations run in: the file system, the state of the lock
primitive, the next free address for `fslock.New`, and the calls made into the
os package, most recent first. -/
structure World (σ : Type) where
  fs : FileSystem
  locks : σ
  nextLock : Nat
  oscalls : List OsCall
  deriving DecidableEq

/-- The call `os.Stat(name)` in a world (the `FileInfo` is dropped by the only
caller). -/
def osStat {σ : Type} (w : World σ) (name : String) : Option GoError × World σ :=
  (w.fs.Stat name, { w with oscalls := .stat name :: w.oscalls })

/-- The call `os.Create(name)` in a world, with the `Close` of the file it
returns. -/
def osCreate {σ : Type} (w : World σ) (name : String) : Option GoError × World σ :=
  ((w.fs.Create name).1, { w with fs := (w.fs.Create name).2, oscalls := .create name :: w.oscalls })

/-- The call `os.Remove(name)` in a world. -/
def osRemove {σ : Type} (w : World σ) (name : String) : Option GoError × World σ :=
  ((w.fs.Remove name).1, { w with fs := (w.fs.Remove name).2, oscalls := .remove name :: w.oscalls })

/-- The call `fslock.New(filename)`: a fresh lock value, no I/O. -/
def fslockNew {σ : Type} (w : World σ) (filename : String) : FslockLock × World σ :=
  ({ addr := w.nextLock, filename := filename }, { w with nextLock := w.nextLock + 1 })

/-! ## The package -/

/-- The struct `FileLock`. -/
structure FileLock where
  lock : FslockLock
  filePath : String
  deriving DecidableEq

/-- The function `NewFileLock`: the handle (`none` for a `nil` pointer), the
error, and the world it leaves. -/
def NewFileLock {σ : Type} (filePath : String) (w : World σ) :
    (Option FileLock × Option GoError) × World σ :=
  let (lock, w1) := fslockNew w filePath
  let (serr, w2) := osStat w1 filePath
  if IsNotExist serr then
    let (cerr, w3) := osCreate w2 filePath
    match cerr with
    | some err => ((none, some (ErrorfW "failed to create file: " err)), w3)
    | none => ((some { lock := lock, filePath := filePath }, none), w3)
  else
    ((some { lock := lock, filePath := filePath }, none), w2)

/-- One second in nanoseconds, `time.Second`. -/
def timeSecond : Nat := 1000000000

/-- The deadline of `Lock`, `3 * time.Second`. -/
def lockTimeout : Nat := 3 * timeSecond

/-- The case the `select` of `Lock` takes. -/
inductive Selected (σ : Type) where
  /-- The receive from `ch`: the error the goroutine sent, and the file system
  and the state of the primitive its call left. -/
  | recv (err : Option GoError) (fs : FileSystem) (s : σ)
  /-- The receive from `time.After`. -/
  | after

/-- The `select` of `Lock`, given what the goroutine running the blocking call
does: the send on `ch` is taken when it comes before the timer fires, the
timer when it fires before the send; when both are ready at the same instant
the runtime picks either, which `tie` decides. -/
def selectLock {σ : Type} (call : Option (Nat × Option GoError × FileSystem × σ))
    (tie : Bool) : Selected σ :=
  match call with
  | none => .after
  | some (t, err, fs, s) =>
    if t < lockTimeout then .recv err fs s
    else if t = lockTimeout ∧ tie = true then .recv err fs s
    else .after

/-- The method `Lock`.  On the timer branch the world is the one at the
return: the goroutine is left running and its call has not completed. -/
def FileLock.Lock {σ : Type} (P : Primitive σ) (tie : Bool) (fl : FileLock) (w : World σ) :
    Option GoError × World σ :=
  match selectLock (P.Lock w.fs w.locks fl.lock) tie with
  | .recv err fs s =>
    match err with
    | some e => (some (ErrorfW "failed to acquire lock: " e), { w with fs := fs, locks := s })
    | none => (none, { w with fs := fs, locks := s })
  | .after => (some (Errorf "timeout occurred while acquiring lock"), w)

/-- The method `TryLock`. -/
def FileLock.TryLock {σ : Type} (P : Primitive σ) (fl : FileLock) (w : World σ) :
    (Bool × Option GoError) × World σ :=
  let (err, fs, s) := P.TryLock w.fs w.locks fl.lock
  match err with
  | none => ((true, none), { w with fs := fs, locks := s })
  | some e =>
    if e = ErrLocked then ((false, none), { w with fs := fs, locks := s })
    else ((false, some (ErrorfW "failed to acquire lock: " e)), { w with fs := fs, locks := s })

/-- The method `Unlock`. -/
def FileLock.Unlock {σ : Type} (P : Primitive σ) (fl : FileLock) (w : World σ) :
    Option GoError × World σ :=
  let (err, s) := P.Unlock w.fs w.locks fl.lock
  match err with
  | some e => (some (ErrorfW "failed to release lock: " e), { w with locks := s })
  | none => (none, { w with locks := s })

/-- The method `Destroy`. -/
def FileLock.Destroy {σ : Type} (P : Primitive σ) (fl : FileLock) (w : World σ) :
    Option GoError × World σ :=
  match fl.Unlock P w with
  | (some err, w1) => (some err, w1)
  | (none, w1) =>
    match osRemove w1 fl.filePath with
    | (some err, w2) => (some (ErrorfW "failed to delete file: " err), w2)
    | (none, w2) => (none, w2)

/-! ## Sequences of calls -/

/-- A handle is bound to `path`: its own path and the file name of its lock
are `path`, as for every handle `NewFileLock path` returns. -/
def FileLock.Bound (fl : FileLock) (path : String) : Prop :=
  fl.filePath = path ∧ fl.lock.filename = path

/-- The handle acquires the lock in `w`, leaving `w1`: its `TryLock` returns
`(true, nil)` or its `Lock` returns `nil`. -/
def FileLock.Acquires {σ : Type} (P : Primitive σ) (fl : FileLock) (w w1 : World σ) : Prop :=
  fl.TryLock P w = ((true, none), w1) ∨ ∃ tie, fl.Lock P tie w = (none, w1)

/-- A call of the package; for `Lock`, with the choice the runtime makes when
send and timer are ready together. -/
inductive Op where
  | newFileLock (filePath : String)
  | lock (fl : FileLock) (tie : Bool)
  | tryLock (fl : FileLock)
  | unlock (fl : FileLock)
  | destroy (fl : FileLock)

/-- The world a call leaves. -/
def Op.run {σ : Type} (P : Primitive σ) : Op → World σ → World σ
  | .newFileLock filePath, w => (NewFileLock filePath w).2
  | .lock fl tie, w => (fl.Lock P tie w).2
  | .tryLock fl, w => (fl.TryLock P w).2
  | .unlock fl, w => (fl.Unlock P w).2
  | .destroy fl, w => (fl.Destroy P w).2

/-- The world a sequence of calls leaves, first call first. -/
def runAll {σ : Type} (P : Primitive σ) (ops : List Op) (w : World σ) : World σ :=
  ops.foldl (fun v op => op.run P v) w

/-- The call is an `Unlock` or a `Destroy` on the lock value at `addr`. -/
def Op.releases (addr : Nat) : Op → Bool
  | .unlock fl => fl.lock.addr == addr
  | .destroy fl => fl.lock.addr == addr
  | _ => false

/-- The file at `path` stays in place along the calls: no call of the
sequence changes what the file system has at `path`. -/
def fileStays {σ : Type} (P : Primitive σ) (path : String) : List Op → World σ → Bool
  | [], _ => true
  | op :: rest, w =>
    decide ((op.run P w).fs.entries.lookup path = w.fs.entries.lookup path) &&
      fileStays P path rest (op.run P w)

/-! ## What is assumed of the primitive -/

/-- The primitive grants the exclusive lock on the file at a path to at most
one lock value at a time: `holder` reads, from the file system and the state
of the primitive, who holds the lock on the file at a path, and depends on the
file system through what is at the path only; a grant makes the caller the
holder, a holder stays the holder until it unlocks, and while there is a
holder the `TryLock` of any other lock value on the path reports
`ErrLocked`. -/
structure Primitive.Exclusive {σ : Type} (P : Primitive σ)
    (holder : FileSystem → σ → String → Option Nat) : Prop where
  holder_congr : ∀ fs fs1 s p, fs.entries.lookup p = fs1.entries.lookup p →
    holder fs s p = holder fs1 s p
  tryLock_locked : ∀ fs s l o, holder fs s l.filename = some o → o ≠ l.addr →
    (P.TryLock fs s l).1 = some ErrLocked
  tryLock_granted : ∀ fs s l, (P.TryLock fs s l).1 = none →
    holder (P.TryLock fs s l).2.1 (P.TryLock fs s l).2.2 l.filename = some l.addr
  lock_granted : ∀ fs s l t fs1 s1, P.Lock fs s l = some (t, none, fs1, s1) →
    holder fs1 s1 l.filename = some l.addr
  tryLock_keeps : ∀ fs s l p o, holder fs s p = some o →
    holder (P.TryLock fs s l).2.1 (P.TryLock fs s l).2.2 p = some o
  lock_keeps : ∀ fs s l p o t r fs1 s1, holder fs s p = some o →
    P.Lock fs s l = some (t, r, fs1, s1) → holder fs1 s1 p = some o
  unlock_keeps : ∀ fs s l p o, holder fs s p = some o → o ≠ l.addr →
    holder fs (P.Unlock fs s l).2 p = some o

/-- The primitive grants a free lock and frees it on unlock: a grant makes the
caller the holder, a holder holds the lock on a file that is there, a
successful `Unlock` by the holder leaves the path without holder, and
`TryLock` on a path whose file is there and has no holder grants. -/
structure Primitive.Reusable {σ : Type} (P : Primitive σ)
    (holder : FileSystem → σ → String → Option Nat) : Prop where
  tryLock_granted : ∀ fs s l, (P.TryLock fs s l).1 = none →
    holder (P.TryLock fs s l).2.1 (P.TryLock fs s l).2.2 l.filename = some l.addr
  lock_granted : ∀ fs s l t fs1 s1, P.Lock fs s l = some (t, none, fs1, s1) →
    holder fs1 s1 l.filename = some l.addr
  holder_file : ∀ fs s p o, holder fs s p = some o → ∃ c, fs.readFile p = some c
  unlock_frees : ∀ fs s l, holder fs s l.filename = some l.addr →
    (P.Unlock fs s l).1 = none → holder fs (P.Unlock fs s l).2 l.filename = none
  tryLock_free : ∀ fs s l c, holder fs s l.filename = none →
    fs.readFile l.filename = some c → (P.TryLock fs s l).1 = none

/-! ## Two concrete primitives -/

/-- The state of `flock`: which lock value holds the lock on which inode, and
the lock values that have opened their file at least once. -/
structure FlockState where
  held : List (Nat × Nat)
  opened : List Nat
  deriving DecidableEq

/-- The non-blocking acquisition of `flock`: open the file with `O_CREAT`,
which fails with its errno or yields the inode; then take the lock on the
inode, or report `ErrLocked` when it is held (the descriptor is closed
again). -/
def flockTry (fs : FileSystem) (st : FlockState) (l : FslockLock) :
    Option GoError × FileSystem × FlockState :=
  match fs.OpenCreat l.filename with
  | (.error code, fs1) => (some (.errno code), fs1, st)
  | (.ok ino, fs1) =>
    match st.held.lookup ino with
    | some _ => (some ErrLocked, fs1, { st with opened := l.addr :: st.opened })
    | none =>
      (none, fs1, { held := (ino, l.addr) :: st.held, opened := l.addr :: st.opened })

/-- The release of `flock`, the close of the descriptor of the lock value: a
holder gives up what it holds; a lock value that has opened its file and holds
nothing closes a closed descriptor, `EBADF`; one that never opened its file
closes descriptor 0 and gets no error. -/
def flockRelease (st : FlockState) (l : FslockLock) : Option GoError × FlockState :=
  if st.held.any (fun kv => st.held.lookup kv.1 == some l.addr) then
    (none, { st with held := st.held.filter (fun kv => st.held.lookup kv.1 != some l.addr) })
  else if st.opened.contains l.addr then (some (.errno EBADF), st)
  else (none, st)

/-- An exclusive advisory lock on inodes, after the unix implementation of the
lock library.  Descriptor numbers are not part of it: a lock value releases
what it acquired.  The blocking `Lock` on a held inode does not return. -/
def flock : Primitive FlockState where
  Lock := fun fs st l =>
    match flockTry fs st l with
    | (none, fs1, st1) => some (0, none, fs1, st1)
    | (some e, fs1, st1) => if e = ErrLocked then none else some (0, some e, fs1, st1)
  TryLock := flockTry
  Unlock := fun _ st l => flockRelease st l

/-- Who holds the lock on the file at a path, for `flock`. -/
def flockHolder (fs : FileSystem) (st : FlockState) (path : String) : Option Nat :=
  match fs.entries.lookup path with
  | some (.file ino _) => st.held.lookup ino
  | _ => none

/-- A primitive whose every call fails at once, as on a lock file that cannot
be opened. -/
def denied : Primitive Unit where
  Lock := fun fs _ _ => some (0, some (.errno EACCES), fs, ())
  TryLock := fun fs _ _ => (some (.errno EACCES), fs, ())
  Unlock := fun _ _ _ => (some (.errno EBADF), ())

/-! ## Error descriptions -/

/-- The descriptions of the phases that can fail. -/
def phases : List String :=
  ["failed to create file", "failed to acquire lock", "failed to release lock",
    "failed to delete file"]

/-- The error wraps `cause` and its message is the description of `phase`
followed by the message of `cause`. -/
def Describes (err cause : GoError) (phase : String) : Prop :=
  err.Unwrap = some cause ∧ err.Error = phase ++ ": " ++ cause.Error

/-- The error wraps some cause under the description of one of the phases. -/
def WrapsCause (err : GoError) : Prop :=
  ∃ phase ∈ phases, ∃ cause, Describes err cause phase

/-- The error `Lock` returns when the deadline passes first. -/
def errLockTimeout : GoError :=
  Errorf "timeout occurred while acquiring lock"

/-! ## Concrete worlds and handles -/

/-- A world over `flock` with the lock file in place and nothing locked. -/
def demoWorld : World FlockState :=
  { fs := { entries := [("/tmp/L", .file 1 "owner=7")], frozen := [], nextIno := 2 },
    locks := { held := [], opened := [] }, nextLock := 2, oscalls := [] }

/-- A first handle on the lock file. -/
def demoH1 : FileLock :=
  { lock := { addr := 0, filename := "/tmp/L" }, filePath := "/tmp/L" }

/-- A second handle on the lock file. -/
def demoH2 : FileLock :=
  { lock := { addr := 1, filename := "/tmp/L" }, filePath := "/tmp/L" }

/-- The world after the first handle took the lock. -/
def demoHeld : World FlockState :=
  { demoWorld with locks := { held := [(1, 0)], opened := [0] } }

/-- The world after the second handle then tried the lock and was refused. -/
def demoContended : World FlockState :=
  { demoWorld with locks := { held := [(1, 0)], opened := [1, 0] } }

/-- The world after the first handle then released the lock. -/
def demoReleased : World FlockState :=
  { demoWorld with locks := { held := [], opened := [0] } }

/-- Calls made while the first handle holds the lock, none of them its
`Unlock` or `Destroy`, none removing the lock file: the `Destroy` of the
second handle fails in its `Unlock`. -/
def demoOps : List Op :=
  [.tryLock demoH2, .destroy demoH2, .lock demoH2 true, .unlock demoH2,
    .newFileLock "/tmp/L", .tryLock demoH1]

/-- The handle `NewFileLock` returns in `demoReleased`. -/
def demoH3 : FileLock :=
  { lock := { addr := 2, filename := "/tmp/L" }, filePath := "/tmp/L" }

/-- The world `NewFileLock` leaves from `demoReleased`. -/
def demoFresh : World FlockState :=
  { demoReleased with nextLock := 3, oscalls := [.stat "/tmp/L"] }

/-- A world over `denied` in which no file is at `/ro/L` and none can be
created there. -/
def deniedWorld : World Unit :=
  { fs := { entries := [], frozen := [("/ro/L", EACCES)], nextIno := 1 },
    locks := (), nextLock := 1, oscalls := [] }

/-- A handle on `/ro/L`. -/
def deniedH : FileLock :=
  { lock := { addr := 0, filename := "/ro/L" }, filePath := "/ro/L" }

/-- A world in which the path of the lock lies below a regular file, so that
its resolution fails with `ENOTDIR`. -/
def notDirWorld : World FlockState :=
  { fs := { entries := [("/etc/hostname", .file 1 "host"),
                        ("/etc/hostname/lock", .fault ENOTDIR)],
            frozen := [], nextIno := 2 },
    locks := { held := [], opened := [] }, nextLock := 0, oscalls := [] }

/-! ## Lemmas on the association lists -/

theorem lookup_filter_self {β : Type} (l : List (String × β)) (name : String) :
    (l.filter (fun kv => kv.1 != name)).lookup name = none := by
  induction l with
  | nil => rfl
  | cons kv rest ih =>
    obtain ⟨k, v⟩ := kv
    by_cases hk : k = name
    · subst hk
      have hdrop : ((k, v) :: rest).filter (fun kv => kv.1 != k) =
          rest.filter (fun kv => kv.1 != k) :=
        List.filter_cons_of_neg (by simp)
      rw [hdrop]
      exact ih
    · have hne : (name == k) = false := by
        simp [beq_eq_false_iff_ne, Ne.symm hk]
      have hkeep : ((k, v) :: rest).filter (fun kv => kv.1 != name) =
          (k, v) :: rest.filter (fun kv => kv.1 != name) :=
        List.filter_cons_of_pos (by simp [hk])
      rw [hkeep, List.lookup_cons, hne]
      exact ih

/-! ## TryLock -/

/-- C1.  `TryLock` returns `(true, nil)` exactly when the one `TryLock` call of
the primitive returned `nil`, `(false, nil)` exactly when it returned
`fslock.ErrLocked`, and for every other error `e` of the primitive the pair of
`false` and the error `fmt.Errorf("failed to acquire lock: %w", e)`, which
unwraps to `e`; the primitive is called once. -/
theorem TryLock_contract {σ : Type} (P : Primitive σ) (fl : FileLock) (w : World σ) :
    ((fl.TryLock P w).1 = (true, none) ↔ (P.TryLock w.fs w.locks fl.lock).1 = none) ∧
    ((fl.TryLock P w).1 = (false, none) ↔
      (P.TryLock w.fs w.locks fl.lock).1 = some ErrLocked) ∧
    (∀ e, (P.TryLock w.fs w.locks fl.lock).1 = some e → e ≠ ErrLocked →
      (fl.TryLock P w).1 = (false, some (ErrorfW "failed to acquire lock: " e)) ∧
      (ErrorfW "failed to acquire lock: " e).Unwrap = some e) ∧
    (fl.TryLock P w).2 =
      { w with fs := (P.TryLock w.fs w.locks fl.lock).2.1,
               locks := (P.TryLock w.fs w.locks fl.lock).2.2 } := by
  unfold FileLock.TryLock
  rcases h : P.TryLock w.fs w.locks fl.lock with ⟨err, fs1, s⟩
  cases err with
  | none => simp
  | some e =>
    by_cases he : e = ErrLocked
    · simp [he]
    · simp [he, ErrorfW, GoError.Unwrap]

/-! ## Errors built by the package -/

theorem describes_ErrorfW (phase pre : String) (e : GoError) (h : pre = phase ++ ": ") :
    Describes (ErrorfW pre e) e phase := by
  subst h
  exact ⟨rfl, rfl⟩

theorem errLockTimeout_not_wrapping : ¬ WrapsCause errLockTimeout := by
  rintro ⟨phase, -, cause, hun, -⟩
  simp [errLockTimeout, Errorf, GoError.Unwrap] at hun

/-! ## Lock -/

/-- C3.  `Lock` has three outcomes, decided by which of the blocking call of
the primitive and the 3-second timer comes first: `nil` when the call returns
first without error; the error `fmt.Errorf("failed to acquire lock: %w", e)`,
which wraps `e` under that description, when it returns first with error `e`;
the error with message `timeout occurred while acquiring lock` when the call
never returns or returns after the deadline.  Every result is one of the
three, and the three differ. -/
theorem Lock_outcomes {σ : Type} (P : Primitive σ) (fl : FileLock) (w : World σ) (tie : Bool) :
    (∀ t fs1 s, P.Lock w.fs w.locks fl.lock = some (t, none, fs1, s) → t < lockTimeout →
      fl.Lock P tie w = (none, { w with fs := fs1, locks := s })) ∧
    (∀ t e fs1 s, P.Lock w.fs w.locks fl.lock = some (t, some e, fs1, s) →
      t < lockTimeout →
      (fl.Lock P tie w).1 = some (ErrorfW "failed to acquire lock: " e) ∧
      Describes (ErrorfW "failed to acquire lock: " e) e "failed to acquire lock") ∧
    ((P.Lock w.fs w.locks fl.lock = none ∨
        ∃ t r fs1 s, P.Lock w.fs w.locks fl.lock = some (t, r, fs1, s) ∧ lockTimeout < t) →
      fl.Lock P tie w = (some errLockTimeout, w) ∧
      errLockTimeout.Error = "timeout occurred while acquiring lock") ∧
    ((fl.Lock P tie w).1 = none ∨
      (∃ e, (fl.Lock P tie w).1 = some (ErrorfW "failed to acquire lock: " e)) ∨
      (fl.Lock P tie w).1 = some errLockTimeout) ∧
    (∀ e, ErrorfW "failed to acquire lock: " e ≠ errLockTimeout) := by
  refine ⟨?_, ?_, ?_, ?_, ?_⟩
  · intro t fs1 s hcall ht
    simp [FileLock.Lock, selectLock, hcall, ht]
  · intro t e fs1 s hcall ht
    refine ⟨?_, describes_ErrorfW _ _ e (by decide)⟩
    simp [FileLock.Lock, selectLock, hcall, ht]
  · intro h
    refine ⟨?_, rfl⟩
    rcases h with hcall | ⟨t, r, fs1, s, hcall, ht⟩
    · simp [FileLock.Lock, selectLock, hcall, errLockTimeout]
    · have h1 : ¬ t < lockTimeout := by omega
      have h2 : ¬ t = lockTimeout := by omega
      simp [FileLock.Lock, selectLock, hcall, h1, h2, errLockTimeout]
  · unfold FileLock.Lock
    cases hsel : selectLock (P.Lock w.fs w.locks fl.lock) tie with
    | recv err fs1 s =>
      cases err with
      | none => simp
      | some e => exact Or.inr (Or.inl ⟨e, rfl⟩)
    | after => exact Or.inr (Or.inr rfl)
  · intro e h
    simp [ErrorfW, errLockTimeout, Errorf] at h

/-! ## Unlock and Destroy -/

theorem Unlock_fs {σ : Type} (P : Primitive σ) (fl : FileLock) (w : World σ) :
    (fl.Unlock P w).2 = { w with locks := (P.Unlock w.fs w.locks fl.lock).2 } := by
  unfold FileLock.Unlock
  rcases h : P.Unlock w.fs w.locks fl.lock with ⟨err, s⟩
  cases err <;> rfl

/-- C5.  When the `Unlock` step of `Destroy` fails with `r`, `Destroy` returns
that same `r`, stops in the world `Unlock` left, has made no call into the os
package, and the file system, so also the file at its path, is as before. -/
theorem Destroy_fail_fast {σ : Type} (P : Primitive σ) (fl : FileLock) (w : World σ)
    (r : GoError) (h : (fl.Unlock P w).1 = some r) :
    (fl.Destroy P w).1 = some r ∧
    (fl.Destroy P w).2 = (fl.Unlock P w).2 ∧
    (fl.Destroy P w).2.oscalls = w.oscalls ∧
    (fl.Destroy P w).2.fs = w.fs ∧
    (fl.Destroy P w).2.fs.readFile fl.filePath = w.fs.readFile fl.filePath := by
  have hw := Unlock_fs P fl w
  have hd : fl.Destroy P w = (some r, (fl.Unlock P w).2) := by
    unfold FileLock.Destroy
    rcases hu : fl.Unlock P w with ⟨err, w1⟩
    rw [hu] at h
    simp only at h
    subst h
    rfl
  rw [hd]
  simp [hw]

/-- C6.  `Destroy` returns no error exactly when its `Unlock` step and then
`os.Remove` of its path both returned none; and when it returns no error, no
file is left at its path: `os.Stat` of the path then fails with an error for
which `os.IsNotExist` holds. -/
theorem Destroy_removes {σ : Type} (P : Primitive σ) (fl : FileLock) (w : World σ) :
    ((fl.Destroy P w).1 = none ↔
      (fl.Unlock P w).1 = none ∧ (osRemove (fl.Unlock P w).2 fl.filePath).1 = none) ∧
    ((fl.Destroy P w).1 = none →
      (fl.Destroy P w).2.fs.readFile fl.filePath = none ∧
      (fl.Destroy P w).2.fs.Stat fl.filePath =
        some (.pathError "stat" fl.filePath (.errno ENOENT)) ∧
      IsNotExist ((fl.Destroy P w).2.fs.Stat fl.filePath) = true) := by
  have hw := Unlock_fs P fl w
  unfold FileLock.Destroy
  rcases hu : fl.Unlock P w with ⟨err, w1⟩
  cases err with
  | some e => simp
  | none =>
    rw [hu] at hw
    simp only at hw
    dsimp only
    rcases hr : osRemove w1 fl.filePath with ⟨rerr, w2⟩
    cases rerr with
    | some e => simp
    | none =>
      dsimp only
      simp only [true_and, and_self, true_iff, forall_const]
      have h2 : w2 = (osRemove w1 fl.filePath).2 := by rw [hr]
      have h1 : (w1.fs.Remove fl.filePath).1 = none := by
        have := congrArg Prod.fst hr
        simpa [osRemove] using this
      have hlook : w2.fs.entries.lookup fl.filePath = none := by
        rw [h2]
        simp only [osRemove]
        revert h1
        unfold FileSystem.Remove
        split
        · split
          · simp
          · intro _
            exact lookup_filter_self _ _
        · simp
        · simp
      simp [FileSystem.readFile, FileSystem.Stat, hlook, IsNotExist]

/-! ## NewFileLock -/

theorem NewFileLock_locks {σ : Type} (filePath : String) (w : World σ) :
    (NewFileLock filePath w).2.locks = w.locks := by
  unfold NewFileLock
  simp only [fslockNew, osStat, osCreate]
  split
  · split <;> rfl
  · rfl

/-- C8.  When a regular file with content `c` exists at the path, `NewFileLock`
returns a handle on the path and no error, makes the one call `os.Stat` and no
`os.Create`, and leaves the file system as it was: the file is still there
with content `c`. -/
theorem NewFileLock_existing {σ : Type} (filePath c : String) (w : World σ)
    (h : w.fs.readFile filePath = some c) :
    (NewFileLock filePath w).1 =
      (some { lock := { addr := w.nextLock, filename := filePath }, filePath := filePath },
        none) ∧
    (NewFileLock filePath w).2.fs = w.fs ∧
    (NewFileLock filePath w).2.fs.readFile filePath = some c ∧
    (NewFileLock filePath w).2.oscalls = .stat filePath :: w.oscalls := by
  have hstat : w.fs.Stat filePath = none := by
    unfold FileSystem.readFile at h
    unfold FileSystem.Stat
    split at h <;> simp_all
  have hrun : NewFileLock filePath w =
      ((some { lock := { addr := w.nextLock, filename := filePath }, filePath := filePath },
          none),
        { w with nextLock := w.nextLock + 1, oscalls := .stat filePath :: w.oscalls }) := by
    simp [NewFileLock, fslockNew, osStat, hstat, IsNotExist]
  rw [hrun]
  exact ⟨rfl, rfl, h, rfl⟩

/-- Where `os.Stat` succeeds or reports that the file does not exist, a
`NewFileLock` that returns no error leaves a file at the path, an empty one
when there was none. -/
theorem NewFileLock_file_in_place {σ : Type} (filePath : String) (w : World σ)
    (hs : w.fs.Stat filePath = none ∨ IsNotExist (w.fs.Stat filePath) = true)
    (h : (NewFileLock filePath w).1.2 = none) :
    ∃ c, (NewFileLock filePath w).2.fs.readFile filePath = some c ∧
      (w.fs.readFile filePath = none → c = "") := by
  revert hs h
  simp only [NewFileLock, fslockNew, osStat, osCreate, FileSystem.Stat, FileSystem.Create,
    FileSystem.readFile]
  cases hl : w.fs.entries.lookup filePath with
  | none =>
    cases hf : w.fs.frozen.lookup filePath with
    | none =>
      intro _ _
      refine ⟨"", ?_, fun _ => rfl⟩
      simp [IsNotExist, ENOENT, List.lookup_cons]
    | some code => simp [IsNotExist, ENOENT]
  | some entry =>
    cases entry with
    | file ino c =>
      intro _ _
      refine ⟨c, ?_, by simp⟩
      simp [IsNotExist, hl]
    | fault code =>
      by_cases hc : code = ENOENT
      · simp [IsNotExist, hc]
      · simp [IsNotExist, hc]

/-- C7, the failing input.  The path `/etc/hostname/lock` lies below a regular
file, `os.Stat` fails with `ENOTDIR`, for which `os.IsNotExist` is false:
`NewFileLock` returns a handle and no error without calling `os.Create`, and
no file is at the path afterwards. -/
theorem NewFileLock_stat_fault :
    NewFileLock "/etc/hostname/lock" notDirWorld =
      ((some { lock := { addr := 0, filename := "/etc/hostname/lock" },
               filePath := "/etc/hostname/lock" }, none),
        { notDirWorld with nextLock := 1, oscalls := [.stat "/etc/hostname/lock"] }) ∧
    (NewFileLock "/etc/hostname/lock" notDirWorld).2.fs.readFile "/etc/hostname/lock" = none ∧
    (NewFileLock "/etc/hostname/lock" notDirWorld).2.fs.Stat "/etc/hostname/lock" =
      some (.pathError "stat" "/etc/hostname/lock" (.errno ENOTDIR)) ∧
    IsNotExist ((NewFileLock "/etc/hostname/lock" notDirWorld).2.fs.Stat
      "/etc/hostname/lock") = false := by
  decide

/-! ## The state of the primitive along a sequence of calls -/

theorem TryLock_locks {σ : Type} (P : Primitive σ) (fl : FileLock) (w : World σ) :
    (fl.TryLock P w).2 =
      { w with fs := (P.TryLock w.fs w.locks fl.lock).2.1,
               locks := (P.TryLock w.fs w.locks fl.lock).2.2 } := by
  unfold FileLock.TryLock
  rcases h : P.TryLock w.fs w.locks fl.lock with ⟨err, fs1, s⟩
  cases err with
  | none => rfl
  | some e => by_cases he : e = ErrLocked <;> simp [he]

theorem TryLock_true {σ : Type} (P : Primitive σ) (fl : FileLock) (w : World σ)
    (h : (fl.TryLock P w).1 = (true, none)) : (P.TryLock w.fs w.locks fl.lock).1 = none := by
  revert h
  unfold FileLock.TryLock
  rcases P.TryLock w.fs w.locks fl.lock with ⟨err, fs1, s⟩
  cases err with
  | none => simp
  | some e => by_cases he : e = ErrLocked <;> simp [he]

theorem TryLock_of_nil {σ : Type} (P : Primitive σ) (fl : FileLock) (w : World σ)
    (h : (P.TryLock w.fs w.locks fl.lock).1 = none) : (fl.TryLock P w).1 = (true, none) := by
  revert h
  unfold FileLock.TryLock
  rcases P.TryLock w.fs w.locks fl.lock with ⟨err, fs1, s⟩
  cases err with
  | none => simp
  | some e => simp

theorem TryLock_of_ErrLocked {σ : Type} (P : Primitive σ) (fl : FileLock) (w : World σ)
    (h : (P.TryLock w.fs w.locks fl.lock).1 = some ErrLocked) :
    (fl.TryLock P w).1 = (false, none) := by
  revert h
  unfold FileLock.TryLock
  rcases P.TryLock w.fs w.locks fl.lock with ⟨err, fs1, s⟩
  cases err with
  | none => simp
  | some e =>
    intro h
    have he : e = ErrLocked := by simpa using h
    simp [he]

theorem Lock_locks {σ : Type} (P : Primitive σ) (tie : Bool) (fl : FileLock) (w : World σ) :
    (fl.Lock P tie w).2 = w ∨
      ∃ t r fs1 s, P.Lock w.fs w.locks fl.lock = some (t, r, fs1, s) ∧
        (fl.Lock P tie w).2 = { w with fs := fs1, locks := s } := by
  unfold FileLock.Lock
  cases hcall : P.Lock w.fs w.locks fl.lock with
  | none => exact Or.inl rfl
  | some res =>
    obtain ⟨t, r, fs1, s⟩ := res
    simp only [selectLock]
    split_ifs
    · cases r <;> exact Or.inr ⟨t, _, fs1, s, rfl, rfl⟩
    · cases r <;> exact Or.inr ⟨t, _, fs1, s, rfl, rfl⟩
    · exact Or.inl rfl

theorem Lock_nil {σ : Type} (P : Primitive σ) (tie : Bool) (fl : FileLock) (w w1 : World σ)
    (h : fl.Lock P tie w = (none, w1)) :
    ∃ t fs1 s, P.Lock w.fs w.locks fl.lock = some (t, none, fs1, s) ∧
      w1 = { w with fs := fs1, locks := s } := by
  revert h
  unfold FileLock.Lock
  cases hcall : P.Lock w.fs w.locks fl.lock with
  | none => simp [selectLock]
  | some res =>
    obtain ⟨t, r, fs1, s⟩ := res
    simp only [selectLock]
    cases r with
    | none =>
      split_ifs
      · intro h
        exact ⟨t, fs1, s, rfl, (Prod.mk.inj h).2.symm⟩
      · intro h
        exact ⟨t, fs1, s, rfl, (Prod.mk.inj h).2.symm⟩
      · simp
    | some e => split_ifs <;> simp

theorem Destroy_locks {σ : Type} (P : Primitive σ) (fl : FileLock) (w : World σ) :
    (fl.Destroy P w).2.locks = (P.Unlock w.fs w.locks fl.lock).2 := by
  have hw := Unlock_fs P fl w
  unfold FileLock.Destroy
  rcases hu : fl.Unlock P w with ⟨err, w1⟩
  rw [hu] at hw
  simp only at hw
  cases err with
  | some e => simp [hw]
  | none =>
    dsimp only
    rcases hr : osRemove w1 fl.filePath with ⟨rerr, w2⟩
    have h2 : w2.locks = w1.locks := by
      have := congrArg (fun x => x.2.locks) hr
      simpa [osRemove] using this.symm
    cases rerr <;> simp [h2, hw]

theorem Acquires_holder {σ : Type} (P : Primitive σ)
    (holder : FileSystem → σ → String → Option Nat)
    (granted : ∀ fs s l, (P.TryLock fs s l).1 = none →
      holder (P.TryLock fs s l).2.1 (P.TryLock fs s l).2.2 l.filename = some l.addr)
    (lockGranted : ∀ fs s l t fs1 s1, P.Lock fs s l = some (t, none, fs1, s1) →
      holder fs1 s1 l.filename = some l.addr)
    (fl : FileLock) (w w1 : World σ) (h : fl.Acquires P w w1) :
    holder w1.fs w1.locks fl.lock.filename = some fl.lock.addr := by
  rcases h with h | ⟨tie, h⟩
  · have hnil := TryLock_true P fl w (by rw [h])
    have hw := TryLock_locks P fl w
    rw [h] at hw
    simp only at hw
    rw [hw]
    exact granted _ _ _ hnil
  · obtain ⟨t, fs1, s, hcall, hs⟩ := Lock_nil P tie fl w w1 h
    rw [hs]
    exact lockGranted _ _ _ t fs1 s hcall

theorem Op.run_keeps_holder {σ : Type} (P : Primitive σ)
    (holder : FileSystem → σ → String → Option Nat) (law : P.Exclusive holder) (op : Op)
    (w : World σ) (p : String) (o : Nat) (hh : holder w.fs w.locks p = some o)
    (hop : op.releases o = false)
    (hfile : (op.run P w).fs.entries.lookup p = w.fs.entries.lookup p) :
    holder (op.run P w).fs (op.run P w).locks p = some o := by
  cases op with
  | newFileLock filePath =>
    simp only [Op.run] at hfile ⊢
    rw [NewFileLock_locks, law.holder_congr _ _ _ _ hfile]
    exact hh
  | lock fl tie =>
    simp only [Op.run]
    rcases Lock_locks P tie fl w with h | ⟨t, r, fs1, s, hcall, h⟩
    · rw [h]
      exact hh
    · rw [h]
      exact law.lock_keeps _ _ _ _ _ t r fs1 s hh hcall
  | tryLock fl =>
    simp only [Op.run, TryLock_locks]
    exact law.tryLock_keeps _ _ _ _ _ hh
  | unlock fl =>
    simp only [Op.run, Unlock_fs]
    have hne : o ≠ fl.lock.addr := by
      intro he
      simp [Op.releases, he] at hop
    exact law.unlock_keeps _ _ _ _ _ hh hne
  | destroy fl =>
    simp only [Op.run] at hfile ⊢
    have hne : o ≠ fl.lock.addr := by
      intro he
      simp [Op.releases, he] at hop
    rw [Destroy_locks, law.holder_congr _ _ _ _ hfile]
    exact law.unlock_keeps _ _ _ _ _ hh hne

theorem runAll_keeps_holder {σ : Type} (P : Primitive σ)
    (holder : FileSystem → σ → String → Option Nat) (law : P.Exclusive holder)
    (ops : List Op) (w : World σ) (p : String) (o : Nat)
    (hh : holder w.fs w.locks p = some o) (hops : ∀ op ∈ ops, op.releases o = false)
    (hstay : fileStays P p ops w = true) :
    holder (runAll P ops w).fs (runAll P ops w).locks p = some o := by
  induction ops generalizing w with
  | nil => exact hh
  | cons op rest ih =>
    simp only [fileStays, Bool.and_eq_true, decide_eq_true_eq] at hstay
    have hstep := Op.run_keeps_holder P holder law op w p o hh (hops op (by simp)) hstay.1
    exact ih (op.run P w) hstep (fun q hq => hops q (by simp [hq])) hstay.2

/-! ## The lock on inodes is a lawful primitive -/

theorem lookup_filter_key {α β : Type} [BEq α] [LawfulBEq α] (l : List (α × β))
    (f : α → Bool) (k : α) :
    (l.filter (fun kv => f kv.1)).lookup k = if f k = true then l.lookup k else none := by
  induction l with
  | nil => simp
  | cons kv rest ih =>
    obtain ⟨k1, v1⟩ := kv
    by_cases hk : k = k1
    · subst hk
      by_cases hf : f k = true
      · have hkeep : ((k, v1) :: rest).filter (fun kv => f kv.1) =
            (k, v1) :: rest.filter (fun kv => f kv.1) :=
          List.filter_cons_of_pos (by simpa using hf)
        rw [hkeep]
        simp [List.lookup_cons, hf]
      · have hdrop : ((k, v1) :: rest).filter (fun kv => f kv.1) =
            rest.filter (fun kv => f kv.1) :=
          List.filter_cons_of_neg (by simpa using hf)
        rw [hdrop, ih]
        simp [hf]
    · have hne : (k == k1) = false := by
        rw [beq_eq_false_iff_ne]
        exact hk
      by_cases hf1 : f k1 = true
      · have hkeep : ((k1, v1) :: rest).filter (fun kv => f kv.1) =
            (k1, v1) :: rest.filter (fun kv => f kv.1) :=
          List.filter_cons_of_pos (by simpa using hf1)
        rw [hkeep, List.lookup_cons, List.lookup_cons, hne, ih]
      · have hdrop : ((k1, v1) :: rest).filter (fun kv => f kv.1) =
            rest.filter (fun kv => f kv.1) :=
          List.filter_cons_of_neg (by simpa using hf1)
        rw [hdrop, List.lookup_cons, hne, ih]

theorem lookup_key_mem {α β : Type} [BEq α] [LawfulBEq α] (l : List (α × β)) (k : α) (v : β)
    (h : l.lookup k = some v) : ∃ kv ∈ l, kv.1 = k := by
  induction l with
  | nil => simp at h
  | cons kv rest ih =>
    obtain ⟨k1, v1⟩ := kv
    by_cases hk : k = k1
    · exact ⟨(k1, v1), by simp, hk.symm⟩
    · have hne : (k == k1) = false := by
        rw [beq_eq_false_iff_ne]
        exact hk
      rw [List.lookup_cons, hne] at h
      obtain ⟨kv, hmem, hkey⟩ := ih h
      exact ⟨kv, List.mem_cons_of_mem _ hmem, hkey⟩

theorem OpenCreat_ok (fs fs1 : FileSystem) (name : String) (ino : Nat)
    (h : fs.OpenCreat name = (.ok ino, fs1)) :
    (∃ c, fs1.entries.lookup name = some (.file ino c)) ∧
    (∀ p e, fs.entries.lookup p = some e → fs1.entries.lookup p = some e) := by
  revert h
  unfold FileSystem.OpenCreat
  cases hl : fs.entries.lookup name with
  | none =>
    cases hf : fs.frozen.lookup name with
    | some code => simp
    | none =>
      intro h
      simp only [Prod.mk.injEq, Except.ok.injEq] at h
      obtain ⟨hino, hfs⟩ := h
      subst hfs
      subst hino
      refine ⟨⟨"", by simp [List.lookup_cons]⟩, ?_⟩
      intro p e hp
      have hne : (p == name) = false := by
        rw [beq_eq_false_iff_ne]
        intro hpn
        rw [hpn, hl] at hp
        exact Option.noConfusion hp
      simp only [List.lookup_cons, hne]
      exact hp
  | some entry =>
    cases entry with
    | fault code => simp
    | file ino1 c =>
      intro h
      simp only [Prod.mk.injEq, Except.ok.injEq] at h
      obtain ⟨hino, hfs⟩ := h
      subst hfs
      subst hino
      exact ⟨⟨c, hl⟩, fun p e hp => hp⟩

theorem OpenCreat_error (fs fs1 : FileSystem) (name : String) (code : Nat)
    (h : fs.OpenCreat name = (.error code, fs1)) : fs1 = fs := by
  revert h
  unfold FileSystem.OpenCreat
  cases hl : fs.entries.lookup name with
  | none =>
    cases hf : fs.frozen.lookup name with
    | some code1 =>
      intro h
      exact (Prod.mk.inj h).2.symm
    | none => simp
  | some entry =>
    cases entry with
    | fault code1 =>
      intro h
      exact (Prod.mk.inj h).2.symm
    | file ino1 c => simp

theorem OpenCreat_file (fs : FileSystem) (name : String) (ino : Nat) (c : String)
    (h : fs.entries.lookup name = some (.file ino c)) : fs.OpenCreat name = (.ok ino, fs) := by
  simp [FileSystem.OpenCreat, h]

/-- What `flockTry` does, by the result of the open and the state of the
inode. -/
theorem flockTry_cases (fs : FileSystem) (st : FlockState) (l : FslockLock) :
    (∃ code, flockTry fs st l = (some (.errno code), fs, st)) ∨
    (∃ ino fs1 o, fs.OpenCreat l.filename = (.ok ino, fs1) ∧ st.held.lookup ino = some o ∧
      flockTry fs st l = (some ErrLocked, fs1, { st with opened := l.addr :: st.opened })) ∨
    (∃ ino fs1, fs.OpenCreat l.filename = (.ok ino, fs1) ∧ st.held.lookup ino = none ∧
      flockTry fs st l =
        (none, fs1, { held := (ino, l.addr) :: st.held, opened := l.addr :: st.opened })) := by
  unfold flockTry
  rcases hopen : fs.OpenCreat l.filename with ⟨res, fs1⟩
  cases res with
  | error code =>
    have hfs := OpenCreat_error fs fs1 l.filename code hopen
    subst hfs
    exact Or.inl ⟨code, rfl⟩
  | ok ino =>
    cases hheld : st.held.lookup ino with
    | some o => exact Or.inr (Or.inl ⟨ino, fs1, o, rfl, hheld, by simp [hheld]⟩)
    | none => exact Or.inr (Or.inr ⟨ino, fs1, rfl, hheld, by simp [hheld]⟩)

theorem flockTry_granted (fs : FileSystem) (st : FlockState) (l : FslockLock)
    (h : (flockTry fs st l).1 = none) :
    flockHolder (flockTry fs st l).2.1 (flockTry fs st l).2.2 l.filename = some l.addr := by
  rcases flockTry_cases fs st l with ⟨code, hc⟩ | ⟨ino, fs1, o, _, _, hc⟩ | ⟨ino, fs1, ho, _, hc⟩
  · rw [hc] at h
    simp at h
  · rw [hc] at h
    simp at h
  · rw [hc]
    obtain ⟨⟨c, hentry⟩, _⟩ := OpenCreat_ok fs fs1 l.filename ino ho
    simp [flockHolder, hentry, List.lookup_cons]

theorem flockTry_keeps (fs : FileSystem) (st : FlockState) (l : FslockLock) (p : String)
    (o : Nat) (h : flockHolder fs st p = some o) :
    flockHolder (flockTry fs st l).2.1 (flockTry fs st l).2.2 p = some o := by
  rcases flockTry_cases fs st l with ⟨code, hc⟩ | ⟨ino, fs1, o1, ho, _, hc⟩ |
    ⟨ino, fs1, ho, hfree, hc⟩
  · rw [hc]
    exact h
  · rw [hc]
    obtain ⟨_, hkeep⟩ := OpenCreat_ok fs fs1 l.filename ino ho
    revert h
    unfold flockHolder
    cases hp : fs.entries.lookup p with
    | none => simp
    | some entry =>
      rw [hkeep p entry hp]
      exact fun h => h
  · rw [hc]
    obtain ⟨_, hkeep⟩ := OpenCreat_ok fs fs1 l.filename ino ho
    revert h
    unfold flockHolder
    cases hp : fs.entries.lookup p with
    | none => simp
    | some entry =>
      rw [hkeep p entry hp]
      cases entry with
      | fault code => simp
      | file ino1 c =>
        intro h
        have hne : (ino1 == ino) = false := by
          rw [beq_eq_false_iff_ne]
          intro he
          simp only at h
          rw [he, hfree] at h
          exact Option.noConfusion h
        simp only [List.lookup_cons, hne]
        exact h

theorem flock_lock_some (fs fs1 : FileSystem) (st st1 : FlockState) (l : FslockLock) (t : Nat)
    (r : Option GoError) (h : flock.Lock fs st l = some (t, r, fs1, st1)) :
    flockTry fs st l = (r, fs1, st1) := by
  revert h
  simp only [flock]
  rcases flockTry fs st l with ⟨err, fs2, st2⟩
  cases err with
  | none =>
    intro h
    simp only [Option.some.injEq, Prod.mk.injEq] at h
    obtain ⟨_, hr, hfs, hst⟩ := h
    rw [← hr, hfs, hst]
  | some e =>
    by_cases he : e = ErrLocked
    · simp [he]
    · intro h
      simp only [he, if_false, Option.some.injEq, Prod.mk.injEq] at h
      obtain ⟨_, hr, hfs, hst⟩ := h
      rw [← hr, hfs, hst]

theorem flockRelease_keeps (fs : FileSystem) (st : FlockState) (l : FslockLock) (p : String)
    (o : Nat) (h : flockHolder fs st p = some o) (hne : o ≠ l.addr) :
    flockHolder fs (flockRelease st l).2 p = some o := by
  unfold flockRelease
  split_ifs
  · revert h
    unfold flockHolder
    cases hp : fs.entries.lookup p with
    | none => simp
    | some entry =>
      cases entry with
      | fault code => simp
      | file ino c =>
        intro h
        simp only at h ⊢
        rw [lookup_filter_key st.held (fun k => st.held.lookup k != some l.addr) ino]
        simp [h, hne]
  · exact h
  · exact h

theorem flockRelease_frees (fs : FileSystem) (st : FlockState) (l : FslockLock)
    (h : flockHolder fs st l.filename = some l.addr) :
    flockHolder fs (flockRelease st l).2 l.filename = none := by
  revert h
  unfold flockHolder
  cases hp : fs.entries.lookup l.filename with
  | none => simp
  | some entry =>
    cases entry with
    | fault code => simp
    | file ino c =>
      intro h
      simp only at h ⊢
      obtain ⟨kv, hmem, hkey⟩ := lookup_key_mem st.held ino l.addr h
      have hany : st.held.any (fun kv => st.held.lookup kv.1 == some l.addr) = true := by
        rw [List.any_eq_true]
        exact ⟨kv, hmem, by rw [hkey, h]; simp⟩
      unfold flockRelease
      rw [if_pos hany]
      simp only
      rw [lookup_filter_key st.held (fun k => st.held.lookup k != some l.addr) ino]
      simp [h]

theorem flock_exclusive : flock.Exclusive flockHolder where
  holder_congr := by
    intro fs fs1 s p h
    simp [flockHolder, h]
  tryLock_locked := by
    intro fs s l o h _
    revert h
    unfold flockHolder
    cases hp : fs.entries.lookup l.filename with
    | none => simp
    | some entry =>
      cases entry with
      | fault code => simp
      | file ino c =>
        intro h
        simp only at h
        simp [flock, flockTry, OpenCreat_file fs l.filename ino c hp, h]
  tryLock_granted := flockTry_granted
  lock_granted := by
    intro fs s l t fs1 s1 h
    have htry := flock_lock_some fs fs1 s s1 l t none h
    have := flockTry_granted fs s l (by rw [htry])
    rw [htry] at this
    exact this
  tryLock_keeps := flockTry_keeps
  lock_keeps := by
    intro fs s l p o t r fs1 s1 h hcall
    have htry := flock_lock_some fs fs1 s s1 l t r hcall
    have := flockTry_keeps fs s l p o h
    rw [htry] at this
    exact this
  unlock_keeps := by
    intro fs s l p o h hne
    exact flockRelease_keeps fs s l p o h hne

theorem flock_reusable : flock.Reusable flockHolder where
  tryLock_granted := flockTry_granted
  lock_granted := by
    intro fs s l t fs1 s1 h
    have htry := flock_lock_some fs fs1 s s1 l t none h
    have := flockTry_granted fs s l (by rw [htry])
    rw [htry] at this
    exact this
  holder_file := by
    intro fs s p o h
    revert h
    unfold flockHolder FileSystem.readFile
    cases hp : fs.entries.lookup p with
    | none => simp
    | some entry =>
      cases entry with
      | fault code => simp
      | file ino c => exact fun _ => ⟨c, rfl⟩
  unlock_frees := by
    intro fs s l h _
    exact flockRelease_frees fs s l h
  tryLock_free := by
    intro fs s l c h hfile
    revert h hfile
    unfold flockHolder FileSystem.readFile
    cases hp : fs.entries.lookup l.filename with
    | none => simp
    | some entry =>
      cases entry with
      | fault code => simp
      | file ino c1 =>
        intro h _
        simp only at h
        simp [flock, flockTry, OpenCreat_file fs l.filename ino c1 hp, h]

/-! ## Mutual exclusion and round trip -/

/-- C2, as stated, fails.  Over the exclusive lock `flock`: the first handle
holds the lock on `/tmp/L`; the second, which never opened the file, calls
`Destroy`, whose `Unlock` returns no error and whose `os.Remove` deletes the
file; the first handle has called neither `Unlock` nor `Destroy`, and
`TryLock` of the second handle creates the file anew and returns
`(true, nil)`. -/
theorem mutual_exclusion_after_Destroy :
    flock.Exclusive flockHolder ∧
    demoH1.Bound "/tmp/L" ∧ demoH2.Bound "/tmp/L" ∧
    demoH1.Acquires flock demoWorld demoHeld ∧
    (∀ op ∈ [Op.destroy demoH2], op.releases demoH1.lock.addr = false) ∧
    (demoH2.Destroy flock demoHeld).1 = none ∧
    (runAll flock [Op.destroy demoH2] demoHeld).fs.readFile "/tmp/L" = none ∧
    (demoH2.TryLock flock (runAll flock [Op.destroy demoH2] demoHeld)).1 = (true, none) :=
  ⟨flock_exclusive, ⟨rfl, rfl⟩, ⟨rfl, rfl⟩, Or.inl (by decide), by decide, by decide,
    by decide, by decide⟩

/-- C2, amended.  Over a primitive that grants the exclusive lock on the file
at a path to at most one lock value at a time: when `h1` and `h2` are two
handles bound to the same path, `h1` has acquired the lock by a successful
`TryLock` or `Lock`, the calls made since contain no `Unlock` and no `Destroy`
of `h1`, and none of them has changed what is at the path (no `Destroy`
removed the lock file), then `TryLock` of `h2` returns `(false, nil)`. -/
theorem mutual_exclusion {σ : Type} (P : Primitive σ)
    (holder : FileSystem → σ → String → Option Nat) (law : P.Exclusive holder)
    (path : String) (h1 h2 : FileLock) (w w1 : World σ) (ops : List Op)
    (hb1 : h1.Bound path) (hb2 : h2.Bound path) (hne : h2.lock.addr ≠ h1.lock.addr)
    (hacq : h1.Acquires P w w1) (hops : ∀ op ∈ ops, op.releases h1.lock.addr = false)
    (hstay : fileStays P path ops w1 = true) :
    (h2.TryLock P (runAll P ops w1)).1 = (false, none) := by
  have hheld := Acquires_holder P holder law.tryLock_granted law.lock_granted h1 w w1 hacq
  rw [hb1.2] at hheld
  have hkept := runAll_keeps_holder P holder law ops w1 _ _ hheld hops hstay
  rw [← hb2.2] at hkept
  exact TryLock_of_ErrLocked P h2 _
    (law.tryLock_locked _ _ _ _ hkept (fun he => hne he.symm))

theorem mutual_exclusion_witness :
    demoH1.Acquires flock demoWorld demoHeld ∧
    fileStays flock "/tmp/L" demoOps demoHeld = true ∧
    (demoH2.TryLock flock (runAll flock demoOps demoHeld)).1 = (false, none) :=
  have hacq : demoH1.Acquires flock demoWorld demoHeld := Or.inl (by decide)
  have hstay : fileStays flock "/tmp/L" demoOps demoHeld = true := by decide
  ⟨hacq, hstay, mutual_exclusion flock flockHolder flock_exclusive "/tmp/L" demoH1 demoH2
    demoWorld demoHeld demoOps ⟨rfl, rfl⟩ ⟨rfl, rfl⟩ (by decide) hacq (by decide) hstay⟩

theorem Unlock_nil {σ : Type} (P : Primitive σ) (fl : FileLock) (w : World σ)
    (h : (fl.Unlock P w).1 = none) : (P.Unlock w.fs w.locks fl.lock).1 = none := by
  revert h
  unfold FileLock.Unlock
  rcases P.Unlock w.fs w.locks fl.lock with ⟨err, s⟩
  cases err <;> simp

theorem NewFileLock_handle {σ : Type} (filePath : String) (w : World σ) (fl : FileLock)
    (h : (NewFileLock filePath w).1.1 = some fl) :
    fl = { lock := { addr := w.nextLock, filename := filePath }, filePath := filePath } := by
  revert h
  unfold NewFileLock
  simp only [fslockNew, osStat, osCreate]
  split
  · split
    · simp
    · intro h
      exact (Option.some.inj h).symm
  · intro h
    exact (Option.some.inj h).symm

theorem NewFileLock_keeps_file {σ : Type} (filePath c : String) (w : World σ)
    (h : w.fs.readFile filePath = some c) : (NewFileLock filePath w).2.fs = w.fs := by
  have hstat : w.fs.Stat filePath = none := by
    unfold FileSystem.readFile at h
    unfold FileSystem.Stat
    split at h <;> simp_all
  simp [NewFileLock, fslockNew, osStat, hstat, IsNotExist]

/-- C9.  Over a primitive that grants a free lock and frees it on unlock: when
a handle bound to a path has acquired the lock by a successful `TryLock` or
`Lock`, its `Unlock` then returns no error, and `NewFileLock` on the same path
then returns a handle, `TryLock` of that handle returns `(true, nil)`. -/
theorem round_trip {σ : Type} (P : Primitive σ)
    (holder : FileSystem → σ → String → Option Nat) (law : P.Reusable holder)
    (path : String) (h1 h2 : FileLock) (w w1 w2 w3 : World σ)
    (hb1 : h1.Bound path) (hacq : h1.Acquires P w w1) (hun : h1.Unlock P w1 = (none, w2))
    (hnew : NewFileLock path w2 = ((some h2, none), w3)) :
    (h2.TryLock P w3).1 = (true, none) := by
  have hheld := Acquires_holder P holder law.tryLock_granted law.lock_granted h1 w w1 hacq
  obtain ⟨c, hfile⟩ := law.holder_file _ _ _ _ hheld
  have hpnil := Unlock_nil P h1 w1 (by rw [hun])
  have hfree := law.unlock_frees _ _ _ hheld hpnil
  have hw2 : w2 = { w1 with locks := (P.Unlock w1.fs w1.locks h1.lock).2 } := by
    have := Unlock_fs P h1 w1
    rw [hun] at this
    exact this
  have hfile2 : w2.fs.readFile path = some c := by
    rw [hw2, ← hb1.2]
    exact hfile
  have hfs3 : w3.fs = w2.fs := by
    have := NewFileLock_keeps_file path c w2 hfile2
    rw [hnew] at this
    exact this
  have hlocks3 : w3.locks = w2.locks := by
    have := NewFileLock_locks path w2
    rw [hnew] at this
    exact this
  have hh2 := NewFileLock_handle path w2 h2 (by rw [hnew])
  have hname : h2.lock.filename = h1.lock.filename := by
    rw [hh2, hb1.2]
  apply TryLock_of_nil
  apply law.tryLock_free _ _ _ c
  · rw [hfs3, hlocks3, hname, hw2]
    exact hfree
  · rw [hfs3, hname, hb1.2]
    exact hfile2

theorem round_trip_witness :
    demoH1.Acquires flock demoWorld demoHeld ∧
    demoH1.Unlock flock demoHeld = (none, demoReleased) ∧
    NewFileLock "/tmp/L" demoReleased = ((some demoH3, none), demoFresh) ∧
    (demoH3.TryLock flock demoFresh).1 = (true, none) :=
  have hacq : demoH1.Acquires flock demoWorld demoHeld := Or.inr ⟨false, by decide⟩
  have hun : demoH1.Unlock flock demoHeld = (none, demoReleased) := by decide
  have hnew : NewFileLock "/tmp/L" demoReleased = ((some demoH3, none), demoFresh) := by
    decide
  ⟨hacq, hun, hnew, round_trip flock flockHolder flock_reusable "/tmp/L" demoH1 demoH3
    demoWorld demoHeld demoReleased demoFresh ⟨rfl, rfl⟩ hacq hun hnew⟩

/-! ## The errors of all five calls -/

/-- C10, as stated, fails.  With the lock held by another handle the blocking
call never returns, `Lock` returns the timeout error, and that error wraps
nothing: it has no cause to unwrap and carries none of the four phase
descriptions. -/
theorem Lock_timeout_wraps_nothing :
    (demoH2.Lock flock false demoHeld).1 = some errLockTimeout ∧
    errLockTimeout.Unwrap = none ∧
    ¬ WrapsCause errLockTimeout :=
  ⟨by decide, rfl, errLockTimeout_not_wrapping⟩

/-- C10, amended.  Every error `NewFileLock`, `TryLock`, `Unlock` or `Destroy`
returns, and every error `Lock` returns other than its timeout error, wraps
the error of the call that failed (`os.Create`, the `Lock`, `TryLock` or
`Unlock` of the primitive, `os.Remove`), which `Unwrap` gives back, and its
message is the description of the phase, `failed to create file`,
`failed to acquire lock`, `failed to release lock` or `failed to delete file`,
followed by the message of that error. -/
theorem errors_describe_cause {σ : Type} (P : Primitive σ) (fl : FileLock) (w : World σ)
    (filePath : String) (tie : Bool) :
    (∀ err, (NewFileLock filePath w).1.2 = some err →
      ∃ cause, (w.fs.Create filePath).1 = some cause ∧
        Describes err cause "failed to create file") ∧
    (∀ err, (fl.Lock P tie w).1 = some err →
      err = errLockTimeout ∨
      ∃ t cause fs1 s, P.Lock w.fs w.locks fl.lock = some (t, some cause, fs1, s) ∧
        Describes err cause "failed to acquire lock") ∧
    (∀ err, (fl.TryLock P w).1.2 = some err →
      ∃ cause, (P.TryLock w.fs w.locks fl.lock).1 = some cause ∧
        Describes err cause "failed to acquire lock") ∧
    (∀ err, (fl.Unlock P w).1 = some err →
      ∃ cause, (P.Unlock w.fs w.locks fl.lock).1 = some cause ∧
        Describes err cause "failed to release lock") ∧
    (∀ err, (fl.Destroy P w).1 = some err →
      (∃ cause, (P.Unlock w.fs w.locks fl.lock).1 = some cause ∧
        Describes err cause "failed to release lock") ∨
      (∃ cause, (w.fs.Remove fl.filePath).1 = some cause ∧
        Describes err cause "failed to delete file")) := by
  refine ⟨?_, ?_, ?_, ?_, ?_⟩
  · intro err
    unfold NewFileLock
    simp only [fslockNew, osStat, osCreate]
    split
    · cases hc : (w.fs.Create filePath).1 with
      | none => simp
      | some cause =>
        intro h
        have he : ErrorfW "failed to create file: " cause = err := by simpa using h
        exact ⟨cause, rfl, he ▸ describes_ErrorfW _ _ cause (by decide)⟩
    · simp
  · intro err
    unfold FileLock.Lock
    cases hcall : P.Lock w.fs w.locks fl.lock with
    | none =>
      intro h
      have he : errLockTimeout = err := by simpa [selectLock, errLockTimeout] using h
      exact Or.inl he.symm
    | some res =>
      obtain ⟨t, r, fs1, s⟩ := res
      simp only [selectLock]
      have hrecv : ∀ err, (match Selected.recv r fs1 s with
          | .recv err fs s =>
            match err with
            | some e =>
              (some (ErrorfW "failed to acquire lock: " e), { w with fs := fs, locks := s })
            | none => (none, { w with fs := fs, locks := s })
          | .after => (some (Errorf "timeout occurred while acquiring lock"), w)).1 = some err →
          ∃ t1 cause fs2 s1, some (t, r, fs1, s) = some (t1, some cause, fs2, s1) ∧
            Describes err cause "failed to acquire lock" := by
        intro err
        cases r with
        | none => simp
        | some cause =>
          intro h
          have he : ErrorfW "failed to acquire lock: " cause = err := by simpa using h
          exact ⟨t, cause, fs1, s, rfl, he ▸ describes_ErrorfW _ _ cause (by decide)⟩
      split_ifs
      · exact fun h => Or.inr (hrecv err h)
      · exact fun h => Or.inr (hrecv err h)
      · intro h
        have he : errLockTimeout = err := by simpa [errLockTimeout] using h
        exact Or.inl he.symm
  · intro err
    unfold FileLock.TryLock
    rcases P.TryLock w.fs w.locks fl.lock with ⟨perr, fs1, s⟩
    cases perr with
    | none => simp
    | some cause =>
      by_cases hc : cause = ErrLocked
      · simp [hc]
      · intro h
        have he : ErrorfW "failed to acquire lock: " cause = err := by simpa [hc] using h
        exact ⟨cause, rfl, he ▸ describes_ErrorfW _ _ cause (by decide)⟩
  · intro err
    unfold FileLock.Unlock
    rcases P.Unlock w.fs w.locks fl.lock with ⟨perr, s⟩
    cases perr with
    | none => simp
    | some cause =>
      intro h
      have he : ErrorfW "failed to release lock: " cause = err := by simpa using h
      exact ⟨cause, rfl, he ▸ describes_ErrorfW _ _ cause (by decide)⟩
  · intro err
    unfold FileLock.Destroy FileLock.Unlock
    rcases P.Unlock w.fs w.locks fl.lock with ⟨perr, s⟩
    cases perr with
    | some cause =>
      intro h
      have he : ErrorfW "failed to release lock: " cause = err := by simpa using h
      exact Or.inl ⟨cause, rfl, he ▸ describes_ErrorfW _ _ cause (by decide)⟩
    | none =>
      simp only [osRemove]
      cases hr : (w.fs.Remove fl.filePath).1 with
      | none => simp [hr]
      | some cause =>
        intro h
        have he : ErrorfW "failed to delete file: " cause = err := by simpa [hr] using h
        exact Or.inr ⟨cause, rfl, he ▸ describes_ErrorfW _ _ cause (by decide)⟩

/-! ## The statements at concrete worlds -/

theorem TryLock_contract_witness :
    (demoH1.TryLock flock demoWorld).1 = (true, none) ∧
    (demoH2.TryLock flock demoHeld).1 = (false, none) ∧
    (deniedH.TryLock denied deniedWorld).1 =
      (false, some (ErrorfW "failed to acquire lock: " (.errno EACCES))) :=
  ⟨(TryLock_contract flock demoH1 demoWorld).1.mpr (by decide),
    (TryLock_contract flock demoH2 demoHeld).2.1.mpr (by decide),
    ((TryLock_contract denied deniedH deniedWorld).2.2.1 (.errno EACCES) (by decide)
      (by decide)).1⟩

theorem Lock_outcomes_witness :
    demoH1.Lock flock false demoWorld = (none, demoHeld) ∧
    (deniedH.Lock denied false deniedWorld).1 =
      some (ErrorfW "failed to acquire lock: " (.errno EACCES)) ∧
    demoH2.Lock flock false demoHeld = (some errLockTimeout, demoHeld) :=
  ⟨(Lock_outcomes flock demoH1 demoWorld false).1 0 demoWorld.fs
      { held := [(1, 0)], opened := [0] } (by decide) (by decide),
    ((Lock_outcomes denied deniedH deniedWorld false).2.1 0 (.errno EACCES) deniedWorld.fs ()
      (by decide) (by decide)).1,
    ((Lock_outcomes flock demoH2 demoHeld false).2.2.1 (Or.inl (by decide))).1⟩

theorem Destroy_fail_fast_witness :
    (demoH2.Unlock flock demoContended).1 =
      some (ErrorfW "failed to release lock: " (.errno EBADF)) ∧
    (demoH2.Destroy flock demoContended).1 =
      some (ErrorfW "failed to release lock: " (.errno EBADF)) ∧
    (demoH2.Destroy flock demoContended).2.oscalls = [] ∧
    (demoH2.Destroy flock demoContended).2.fs.readFile "/tmp/L" = some "owner=7" :=
  have hfail : (demoH2.Unlock flock demoContended).1 =
      some (ErrorfW "failed to release lock: " (.errno EBADF)) := by decide
  have hd := Destroy_fail_fast flock demoH2 demoContended _ hfail
  ⟨hfail, hd.1, hd.2.2.1, hd.2.2.2.2⟩

theorem Destroy_removes_witness :
    (demoH1.Destroy flock demoHeld).1 = none ∧
    (demoH1.Destroy flock demoHeld).2.fs.readFile "/tmp/L" = none ∧
    IsNotExist ((demoH1.Destroy flock demoHeld).2.fs.Stat "/tmp/L") = true :=
  have hok : (demoH1.Destroy flock demoHeld).1 = none :=
    (Destroy_removes flock demoH1 demoHeld).1.mpr ⟨by decide, by decide⟩
  have hgone := (Destroy_removes flock demoH1 demoHeld).2 hok
  ⟨hok, hgone.1, hgone.2.2⟩

theorem NewFileLock_existing_witness :
    demoWorld.fs.readFile "/tmp/L" = some "owner=7" ∧
    (NewFileLock "/tmp/L" demoWorld).1 = (some demoH3, none) ∧
    (NewFileLock "/tmp/L" demoWorld).2.fs = demoWorld.fs ∧
    (NewFileLock "/tmp/L" demoWorld).2.fs.readFile "/tmp/L" = some "owner=7" :=
  have hfile : demoWorld.fs.readFile "/tmp/L" = some "owner=7" := by decide
  have hn := NewFileLock_existing "/tmp/L" "owner=7" demoWorld hfile
  ⟨hfile, hn.1, hn.2.1, hn.2.2.1⟩

theorem errors_describe_cause_witness :
    (∃ cause, (deniedWorld.fs.Create "/ro/L").1 = some cause ∧
      Describes (ErrorfW "failed to create file: "
        (.pathError "open" "/ro/L" (.errno EACCES))) cause "failed to create file") ∧
    (ErrorfW "failed to create file: " (.pathError "open" "/ro/L" (.errno EACCES))).Error =
      "failed to create file: open /ro/L: permission denied" ∧
    (∃ cause, (denied.Unlock deniedWorld.fs () deniedH.lock).1 = some cause ∧
      Describes (ErrorfW "failed to release lock: " (.errno EBADF)) cause
        "failed to release lock") :=
  have hall := errors_describe_cause denied deniedH deniedWorld "/ro/L" false
  ⟨hall.1 _ (by decide), by decide, hall.2.2.2.1 _ (by decide)⟩

end Kafkautils
